import Mathlib

/-!
Shallow embedding of the `conductor` vault transform plugin
(`src/plugins/transform/vault.rs`) and of the `ps` command
(`src/cmd/ps.rs`), together with theorems about their behaviour.

Rust `BTreeMap`s are modelled as association lists with first-match
lookup and in-place overwriting insertion; `Result<T, E>` is modelled as
`Except E T`; the in-place mutation of the service tree performed by
`transform` is modelled by state passing, returning the (possibly
partially) mutated tree together with the optional first error.  Calls
made to the token backend are made observable as an explicit trace,
mirroring what the `MockVault` in the source records.
-/

deriving instance DecidableEq for Except

/-- Error type of Rust's `std::env::VarError`; the configuration
resolver only ever produces `NotPresent`. -/
inductive VarError where
  | NotPresent : VarError
  | NotUnicode : String → VarError
  deriving DecidableEq, Repr

/-- The crate-wide error type `util::Error` (a boxed error).  We model
the two shapes the embedded code can produce: a wrapped interpolation
`VarError`, and an arbitrary message-carrying error (for backend
failures and the like). -/
inductive Error where
  | var : VarError → Error
  | other : String → Error
  deriving DecidableEq, Repr

/-- The deployment-identity part of `plugins::Context`: read-only
accessors for the project, override and pod names. -/
structure Context where
  project : String
  ovr : String
  pod : String
  deriving DecidableEq, Repr

/-- The "environment" in which to interpret a configuration file: not
the OS environment variables, but a fake environment with a few
carefully selected values (from `vault.rs`, `struct ConfigEnvironment`). -/
structure ConfigEnvironment where
  ctx : Context
  service : String
  deriving DecidableEq, Repr

/-- The resolver `ConfigEnvironment::var` from `vault.rs`: maps the four
recognized names to deployment-identity fields and fails with
`NotPresent` on everything else. -/
def ConfigEnvironment.var (e : ConfigEnvironment) (key : String) : Except VarError String :=
  match key with
  | "PROJECT" => Except.ok e.ctx.project
  | "OVERRIDE" => Except.ok e.ctx.ovr
  | "POD" => Except.ok e.ctx.pod
  | "SERVICE" => Except.ok e.service
  | _ => Except.error VarError.NotPresent

/-- Modelled from the spec: raw templates and their interpolation live
in the external `docker_compose` crate (`RawOr<String>` and
`interpolate_env`), whose sources are not part of this repository.  Per
spec section 4.2 a raw template is a string containing shell-style
variable references; we model it already split into literal text and
variable-reference segments. -/
inductive TemplatePart where
  | lit : String → TemplatePart
  | var : String → TemplatePart
  deriving DecidableEq, Repr

/-- A raw template: a sequence of literal and variable segments. -/
abbrev Template := List TemplatePart

/-- Modelled from the spec (section 4.2): `expand(template, resolver)`
substitutes each variable reference with the resolver's value, fails
fast on the first unresolved reference (wrapping the `VarError` into
`Error`, as the `try!` in `vault.rs` does), and passes literal text
through unchanged. -/
def interpolate (env : String → Except VarError String) : Template → Except Error String
  | [] => Except.ok ""
  | TemplatePart.lit s :: rest => (interpolate env rest).map (fun r => s ++ r)
  | TemplatePart.var n :: rest =>
    match env n with
    | Except.error e => Except.error (Error.var e)
    | Except.ok v => (interpolate env rest).map (fun r => v ++ r)

/-- The interpolation loop of `Plugin::transform` (`vault.rs` lines
222-227): interpolate each raw policy in order, short-circuiting on the
first failure. -/
def interpolateAll (env : String → Except VarError String) : List Template → Except Error (List String)
  | [] => Except.ok []
  | t :: rest =>
    match interpolate env t with
    | Except.error e => Except.error e
    | Except.ok s => (interpolateAll env rest).map (fun l => s :: l)

/-- Modelled from the spec (section 6): the per-service entry of the
config document, carrying its ordered list of raw policy templates.
The concrete `Config` struct comes from `vault_config.in.rs`, which is
not among the provided sources. -/
structure ServiceConfig where
  policies : List Template
  deriving DecidableEq, Repr

/-- Modelled from the spec (section 6): the `config/vault.yml` document,
parsed and read into memory.  `pods` maps pod name to a map from service
name to per-service config; `extra_environment` maps variable names to
raw templates. -/
structure Config where
  default_policies : List Template
  pods : List (String × List (String × ServiceConfig))
  default_ttl : Nat
  extra_environment : List (String × Template)
  deriving Repr

/-- First-match lookup in an association list, modelling `BTreeMap::get`. -/
def alistGet {α : Type} : List (String × α) → String → Option α
  | [], _ => none
  | (k', v) :: rest, k => if k' = k then some v else alistGet rest k

/-- The raw policy list built by `Plugin::transform` (`vault.rs` lines
214-220): a clone of `default_policies`, extended with the policies of
`pods[pod][service]` when that entry exists and with nothing otherwise. -/
def composePolicies (cfg : Config) (pod service : String) : List Template :=
  cfg.default_policies ++
    (((alistGet cfg.pods pod).bind (fun m => alistGet m service)).map
      (fun sc => sc.policies)).getD []

/-- Vault's duration type (`VaultDuration`), a number of seconds. -/
structure VaultDuration where
  secs : Nat
  deriving DecidableEq, Repr

/-- Constructor `VaultDuration::seconds`. -/
def VaultDuration.seconds (n : Nat) : VaultDuration := ⟨n⟩

/-- The `GenerateToken` trait from `vault.rs`: an abstract interface to
Vault's token-generation capabilities, modelled as a record of its two
operations. -/
structure GenerateToken where
  addr : String
  generate_token : String → List String → VaultDuration → Except Error String

/-- The `MockVault` backend from `vault.rs`: a fixed address and a
token generator that always returns `"fake_token"`.  (The source's
mock also records its calls; the recording is modelled by the explicit
call trace returned by `Plugin.processService` below.) -/
def MockVault : GenerateToken :=
  { addr := "http://example.com:8200/",
    generate_token := fun _ _ _ => Except.ok "fake_token" }

/-- The live `Vault` backend's stored state (`struct Vault`). -/
structure Vault where
  addr : String
  token : String
  deriving DecidableEq, Repr

/-- The constructor `Vault::new` from `vault.rs`: reads `VAULT_ADDR` and
`VAULT_MASTER_TOKEN` from the process environment; either missing is an
error.  This is the only place the embedded code consults the process
environment. -/
def Vault.new (procEnv : String → Except VarError String) : Except Error Vault :=
  match procEnv "VAULT_ADDR" with
  | Except.error e => Except.error (Error.var e)
  | Except.ok a =>
    match procEnv "VAULT_MASTER_TOKEN" with
    | Except.error e => Except.error (Error.var e)
    | Except.ok t => Except.ok ⟨a, t⟩

/-- One call made to `GenerateToken::generate_token`, as recorded by the
source's `MockVault` (display name, interpolated policies, ttl). -/
structure VaultCall where
  display_name : String
  policies : List String
  ttl : VaultDuration
  deriving DecidableEq, Repr

/-- A service environment: variable name to value, modelling the
`BTreeMap<String, String>` of `dc::Service::environment`. -/
abbrev EnvMap := List (String × String)

/-- Map insertion modelling `BTreeMap::insert`: overwrite the binding of
the key if present, append it otherwise. -/
def envInsert (k v : String) : EnvMap → EnvMap
  | [] => [(k, v)]
  | (k', v') :: rest => if k' = k then (k, v) :: rest else (k', v') :: envInsert k v rest

/-- Map lookup modelling `BTreeMap::get` on a service environment. -/
def envGet : EnvMap → String → Option String
  | [], _ => none
  | (k', v') :: rest, k => if k' = k then some v' else envGet rest k

/-- A service of the merged definition tree (`dc::Service`): `transform`
touches only the `environment` field, so every other field of the
service is abstracted into `rest`. -/
structure Service (ρ : Type) where
  environment : EnvMap
  rest : ρ
  deriving DecidableEq, Repr

/-- The vault plugin (`struct Plugin`): the parsed config document and
the token backend handle. -/
structure Plugin where
  config : Config
  generator : GenerateToken

/-- The plugin's static name (`PluginTransform::name`). -/
def Plugin.pluginName (_p : Plugin) : String := "vault"

/-- The display name computed by `Plugin::transform` (`vault.rs` lines
230-234): the four identity fields joined with dashes. -/
def displayName (ctx : Context) (service : String) : String :=
  ctx.project ++ "-" ++ ctx.ovr ++ "-" ++ ctx.pod ++ "-" ++ service

/-- The extra-environment loop of `Plugin::transform` (`vault.rs` lines
240-243): interpolate each `extra_environment` entry in order and insert
it into the environment, stopping at the first interpolation failure
(entries already inserted are kept). -/
def applyExtra (env : String → Except VarError String) :
    List (String × Template) → EnvMap → EnvMap × Option Error
  | [], e => (e, none)
  | (k, t) :: rest, e =>
    match interpolate env t with
    | Except.error err => (e, some err)
    | Except.ok v => applyExtra env rest (envInsert k v e)

/-- The body of `Plugin::transform`'s per-service loop (`vault.rs` lines
195-243), with in-place mutation modelled by returning the mutated
service, the trace of backend calls made, and the first error if any:
insert `VAULT_ADDR`; compose and interpolate the policies; call
`generate_token` and insert `VAULT_TOKEN`; apply `extra_environment`. -/
def Plugin.processService {ρ : Type} (p : Plugin) (ctx : Context) (name : String)
    (svc : Service ρ) : Service ρ × List VaultCall × Option Error :=
  let env := ConfigEnvironment.mk ctx name
  let svc1 : Service ρ :=
    { svc with environment := envInsert "VAULT_ADDR" p.generator.addr svc.environment }
  match interpolateAll env.var (composePolicies p.config ctx.pod name) with
  | Except.error e => (svc1, [], some e)
  | Except.ok policies =>
    let dn := displayName ctx name
    let ttl := VaultDuration.seconds p.config.default_ttl
    match p.generator.generate_token dn policies ttl with
    | Except.error e => (svc1, [⟨dn, policies, ttl⟩], some e)
    | Except.ok token =>
      let svc2 : Service ρ :=
        { svc1 with environment := envInsert "VAULT_TOKEN" token svc1.environment }
      let res := applyExtra env.var p.config.extra_environment svc2.environment
      ({ svc2 with environment := res.1 }, [⟨dn, policies, ttl⟩], res.2)

/-- `Plugin::transform` (`vault.rs` lines 189-246): iterate the services
in the order presented by the tree; on the first per-service error, stop
and return the tree with the mutations applied so far together with that
error. -/
def Plugin.transform {ρ : Type} (p : Plugin) (ctx : Context) :
    List (String × Service ρ) → List (String × Service ρ) × List VaultCall × Option Error
  | [] => ([], [], none)
  | (name, svc) :: rest =>
    match p.processService ctx name svc with
    | (svc', calls, none) =>
      let r := p.transform ctx rest
      ((name, svc') :: r.1, calls ++ r.2.1, r.2.2)
    | (svc', calls, some e) => ((name, svc') :: rest, calls, some e)

/-- The transform as invoked inside a running process: the OS process
environment `_procEnv` is in scope for the program, but the transform
builds its own `ConfigEnvironment` resolver and never consults the
process environment. -/
def Plugin.transformInProcess {ρ : Type} (p : Plugin) (_procEnv : String → Option String)
    (ctx : Context) (svcs : List (String × Service ρ)) :
    List (String × Service ρ) × List VaultCall × Option Error :=
  p.transform ctx svcs

/-- The `args::ActOn` argument of the `ps` command: act on all pods, or
on a named list of services or pods. -/
inductive ActOn where
  | all : ActOn
  | named : List String → ActOn
  deriving DecidableEq, Repr

/-- `CommandPs::ps` for `Project` (`src/cmd/ps.rs` lines 24-41).
Modelled from the spec: `Project::compose` lives in `cmd/compose.rs`,
which is not among the provided sources, so the delegation target (with
the runner, subcommand and options already bound) is abstracted as the
function argument `compose`. -/
def CommandPs.ps {α : Type} (compose : ActOn → Except String α) (act_on : ActOn) :
    Except String α :=
  match act_on with
  | ActOn.named names =>
    if names.length = 1 then compose (ActOn.named names)
    else Except.error "You may only specify a single service or pod"
  | ActOn.all => Except.error "You may only specify a single service or pod"

/-- The deployment identity of the end-to-end scenario exercised by the
test `interpolates_policies` (project rails_hello, override production,
pod frontend). -/
def ctxEx : Context := ⟨"rails_hello", "production", "frontend"⟩

def svcEx : Service Unit := ⟨[], ()⟩

def tProjOvr : Template :=
  [TemplatePart.var "PROJECT", TemplatePart.lit "-", TemplatePart.var "OVERRIDE"]

def tFull : Template :=
  [TemplatePart.var "PROJECT", TemplatePart.lit "-", TemplatePart.var "OVERRIDE",
   TemplatePart.lit "-", TemplatePart.var "POD", TemplatePart.lit "-", TemplatePart.var "SERVICE"]

def tSsl : Template :=
  [TemplatePart.var "PROJECT", TemplatePart.lit "-", TemplatePart.var "OVERRIDE",
   TemplatePart.lit "-ssl"]

def cfgEx : Config :=
  { default_policies := [tProjOvr, tFull, tSsl],
    pods := [],
    default_ttl := 2592000,
    extra_environment := [("VAULT_ENV", [TemplatePart.var "OVERRIDE"])] }

def pluginEx : Plugin := ⟨cfgEx, MockVault⟩

def cfgOverwrite : Config :=
  { default_policies := [],
    pods := [],
    default_ttl := 300,
    extra_environment := [("VAULT_TOKEN", [TemplatePart.lit "oops"])] }

def pluginOverwrite : Plugin := ⟨cfgOverwrite, MockVault⟩

def cfgBad : Config :=
  { default_policies := [[TemplatePart.var "BOGUS"]],
    pods := [],
    default_ttl := 300,
    extra_environment := [] }

def pluginBad : Plugin := ⟨cfgBad, MockVault⟩

def cfgFailWeb : Config :=
  { default_policies := [],
    pods := [("frontend", [("web", ⟨[[TemplatePart.var "BOGUS"]]⟩)])],
    default_ttl := 300,
    extra_environment := [] }

def pluginFailWeb : Plugin := ⟨cfgFailWeb, MockVault⟩

def cfgDup : Config :=
  { default_policies := [[TemplatePart.lit "p"]],
    pods := [("frontend", [("web", ⟨[[TemplatePart.lit "p"]]⟩)])],
    default_ttl := 60,
    extra_environment := [] }

def pluginDup : Plugin := ⟨cfgDup, MockVault⟩

theorem processService_spec (p : Plugin) (ctx : Context) (name : String) {ρ : Type} (svc : Service ρ) :
    p.processService ctx name svc =
      match interpolateAll (ConfigEnvironment.mk ctx name).var (composePolicies p.config ctx.pod name) with
      | Except.error e =>
        ({ svc with environment := envInsert "VAULT_ADDR" p.generator.addr svc.environment }, [], some e)
      | Except.ok pols =>
        match p.generator.generate_token (displayName ctx name) pols
            (VaultDuration.seconds p.config.default_ttl) with
        | Except.error e =>
          ({ svc with environment := envInsert "VAULT_ADDR" p.generator.addr svc.environment },
           [⟨displayName ctx name, pols, VaultDuration.seconds p.config.default_ttl⟩], some e)
        | Except.ok token =>
          let res := applyExtra (ConfigEnvironment.mk ctx name).var p.config.extra_environment
            (envInsert "VAULT_TOKEN" token (envInsert "VAULT_ADDR" p.generator.addr svc.environment))
          ({ svc with environment := res.1 },
           [⟨displayName ctx name, pols, VaultDuration.seconds p.config.default_ttl⟩], res.2) := rfl

-- envGet/envInsert
theorem envGet_envInsert (k' v k : String) (e : EnvMap) :
    envGet (envInsert k' v e) k = if k' = k then some v else envGet e k := by
  induction e with
  | nil => simp [envInsert, envGet]
  | cons p rest ih =>
    obtain ⟨k1, v1⟩ := p
    by_cases h1 : k1 = k'
    · subst h1
      simp [envInsert, envGet]
      by_cases h2 : k1 = k <;> simp [h2]
    · simp [envInsert, h1, envGet]
      by_cases h2 : k1 = k
      · subst h2
        have : ¬ k' = k1 := fun h => h1 h.symm
        simp [envGet, this]
      · simp [envGet, h2, ih]

theorem applyExtra_append_ok (env : String → Except VarError String)
    (l1 l2 : List (String × Template)) (e e1 : EnvMap)
    (h : applyExtra env l1 e = (e1, none)) :
    applyExtra env (l1 ++ l2) e = applyExtra env l2 e1 := by
  induction l1 generalizing e with
  | nil =>
    simp [applyExtra] at h
    rw [List.nil_append, h]
  | cons q rest ih =>
    obtain ⟨k, t⟩ := q
    simp only [List.cons_append, applyExtra] at h ⊢
    cases hi : interpolate env t with
    | error err => rw [hi] at h; simp at h
    | ok v => rw [hi] at h; exact ih _ h

theorem applyExtra_preserves (env : String → Except VarError String)
    (l : List (String × Template)) (e : EnvMap) (k : String)
    (h : ∀ q ∈ l, q.1 ≠ k) :
    envGet (applyExtra env l e).1 k = envGet e k := by
  induction l generalizing e with
  | nil => rfl
  | cons q rest ih =>
    obtain ⟨k1, t⟩ := q
    simp only [applyExtra]
    cases hi : interpolate env t with
    | error err => rfl
    | ok v =>
      have hk1 : k1 ≠ k := h (k1, t) (List.mem_cons_self _ _)
      rw [ih _ (fun q hq => h q (List.mem_cons_of_mem _ hq))]
      rw [envGet_envInsert, if_neg hk1]

theorem applyExtra_isSome (env : String → Except VarError String)
    (l : List (String × Template)) (e : EnvMap) (k : String)
    (h : (envGet e k).isSome = true) :
    (envGet (applyExtra env l e).1 k).isSome = true := by
  induction l generalizing e with
  | nil => exact h
  | cons q rest ih =>
    obtain ⟨k1, t⟩ := q
    simp only [applyExtra]
    cases hi : interpolate env t with
    | error err => exact h
    | ok v =>
      apply ih
      rw [envGet_envInsert]
      by_cases hk : k1 = k <;> simp [hk, h]

theorem interpolateAll_append (env : String → Except VarError String)
    (l1 l2 : List Template) (a b : List String)
    (h1 : interpolateAll env l1 = Except.ok a) (h2 : interpolateAll env l2 = Except.ok b) :
    interpolateAll env (l1 ++ l2) = Except.ok (a ++ b) := by
  induction l1 generalizing a with
  | nil =>
    simp [interpolateAll] at h1
    subst h1
    simpa using h2
  | cons t rest ih =>
    simp only [List.cons_append, interpolateAll] at h1 ⊢
    cases hi : interpolate env t with
    | error err => rw [hi] at h1; simp at h1
    | ok s =>
      rw [hi] at h1
      dsimp only at h1 ⊢
      cases hr : interpolateAll env rest with
      | error err => rw [hr] at h1; simp [Except.map] at h1
      | ok xs =>
        rw [hr] at h1
        simp only [Except.map] at h1
        injection h1 with h1
        show Except.map (fun l => s :: l) (interpolateAll env (rest ++ l2)) = Except.ok (a ++ b)
        rw [ih xs hr]
        simp [Except.map, ← h1]

theorem processService_rest (p : Plugin) (ctx : Context) (name : String) {ρ : Type}
    (svc : Service ρ) : (p.processService ctx name svc).1.rest = svc.rest := by
  rw [processService_spec]
  cases interpolateAll (ConfigEnvironment.mk ctx name).var (composePolicies p.config ctx.pod name) with
  | error e => rfl
  | ok pols =>
    dsimp only
    cases p.generator.generate_token (displayName ctx name) pols
        (VaultDuration.seconds p.config.default_ttl) with
    | error e => rfl
    | ok token => rfl

theorem processService_calls (p : Plugin) (ctx : Context) (name : String) {ρ : Type}
    (svc : Service ρ) (h : (p.processService ctx name svc).2.2 = none) :
    ∃ pols, (p.processService ctx name svc).2.1 =
      [⟨displayName ctx name, pols, VaultDuration.seconds p.config.default_ttl⟩] := by
  cases hI : interpolateAll (ConfigEnvironment.mk ctx name).var (composePolicies p.config ctx.pod name) with
  | error e =>
    rw [processService_spec, hI] at h
    simp at h
  | ok pols =>
    refine ⟨pols, ?_⟩
    rw [processService_spec, hI]
    dsimp only
    cases p.generator.generate_token (displayName ctx name) pols
        (VaultDuration.seconds p.config.default_ttl) with
    | error e => rfl
    | ok token => rfl

theorem transform_cons (p : Plugin) (ctx : Context) {ρ : Type} (n : String) (s : Service ρ)
    (rest : List (String × Service ρ)) :
    p.transform ctx ((n, s) :: rest) =
      match p.processService ctx n s with
      | (svc1, calls, none) =>
        ((n, svc1) :: (p.transform ctx rest).1, calls ++ (p.transform ctx rest).2.1,
         (p.transform ctx rest).2.2)
      | (svc1, calls, some e) => ((n, svc1) :: rest, calls, some e) := rfl

theorem transform_ok_parts (p : Plugin) (ctx : Context) {ρ : Type}
    (svcs svcs1 : List (String × Service ρ)) (calls : List VaultCall)
    (hok : p.transform ctx svcs = (svcs1, calls, none)) :
    svcs1 = svcs.map (fun q => (q.1, (p.processService ctx q.1 q.2).1)) ∧
    (∀ q ∈ svcs, (p.processService ctx q.1 q.2).2.2 = none) ∧
    calls = svcs.foldr (fun q acc => (p.processService ctx q.1 q.2).2.1 ++ acc) [] := by
  induction svcs generalizing svcs1 calls with
  | nil =>
    simp only [Plugin.transform, Prod.mk.injEq] at hok
    obtain ⟨h1, h2, _⟩ := hok
    simp [← h1, ← h2]
  | cons q rest ih =>
    obtain ⟨n, s⟩ := q
    rw [transform_cons] at hok
    rcases hps : p.processService ctx n s with ⟨s1, cls, err⟩
    rw [hps] at hok
    cases err with
    | some e => simp at hok
    | none =>
      dsimp only at hok
      rcases hr : p.transform ctx rest with ⟨rs, rcalls, rerr⟩
      rw [hr] at hok
      simp only [Prod.mk.injEq] at hok
      obtain ⟨h1, h2, h3⟩ := hok
      obtain ⟨ih1, ih2, ih3⟩ := ih rs rcalls (by rw [hr, h3])
      refine ⟨?_, ?_, ?_⟩
      · rw [← h1, List.map_cons, ← ih1, hps]
      · intro q hq
        rcases List.mem_cons.mp hq with hq | hq
        · rw [hq, hps]
        · exact ih2 q hq
      · rw [← h2, List.foldr_cons, ← ih3, hps]

theorem applyExtra_append_err (env : String → Except VarError String)
    (l1 l2 : List (String × Template)) (e e1 : EnvMap) (err : Error)
    (h : applyExtra env l1 e = (e1, some err)) :
    applyExtra env (l1 ++ l2) e = (e1, some err) := by
  induction l1 generalizing e with
  | nil => simp [applyExtra] at h
  | cons q rest ih =>
    obtain ⟨k, t⟩ := q
    simp only [List.cons_append, applyExtra] at h ⊢
    cases hi : interpolate env t with
    | error err2 =>
      rw [hi] at h
      dsimp only at h ⊢
      exact h
    | ok v =>
      rw [hi] at h
      dsimp only at h ⊢
      exact ih _ h

theorem applyExtra_last_write (env : String → Except VarError String)
    (l1 l2 : List (String × Template)) (k : String) (t : Template) (v : String)
    (e : EnvMap)
    (hv : interpolate env t = Except.ok v)
    (hlast : ∀ q ∈ l2, q.1 ≠ k)
    (hok : (applyExtra env (l1 ++ (k, t) :: l2) e).2 = none) :
    envGet (applyExtra env (l1 ++ (k, t) :: l2) e).1 k = some v := by
  rcases h1 : applyExtra env l1 e with ⟨e1, err1⟩
  cases err1 with
  | some err =>
    rw [applyExtra_append_err env l1 ((k, t) :: l2) e e1 err h1] at hok
    simp at hok
  | none =>
    rw [applyExtra_append_ok env l1 ((k, t) :: l2) e e1 h1] at hok ⊢
    simp only [applyExtra] at hok ⊢
    rw [hv] at hok ⊢
    dsimp only at hok ⊢
    rw [applyExtra_preserves env l2 (envInsert k v e1) k hlast]
    rw [envGet_envInsert, if_pos rfl]

theorem calls_shape (p : Plugin) (ctx : Context) {ρ : Type}
    (svcs : List (String × Service ρ))
    (h2 : ∀ q ∈ svcs, (p.processService ctx q.1 q.2).2.2 = none) :
    (svcs.foldr (fun q acc => (p.processService ctx q.1 q.2).2.1 ++ acc) []).map
        (fun c => (c.display_name, c.ttl)) =
      svcs.map (fun q => (displayName ctx q.1, VaultDuration.seconds p.config.default_ttl)) := by
  induction svcs with
  | nil => rfl
  | cons q rest ih =>
    obtain ⟨n, s⟩ := q
    obtain ⟨pols, hcalls⟩ := processService_calls p ctx n s (h2 (n, s) (List.mem_cons_self _ _))
    simp only [List.foldr_cons, List.map_cons, List.map_append, hcalls]
    rw [ih (fun q hq => h2 q (List.mem_cons_of_mem _ hq))]
    rfl

/-- C5: the environment resolver maps PROJECT, OVERRIDE, POD and SERVICE to
the corresponding fields of the current deployment identity, and fails with
the undefined-variable error (`VarError.NotPresent`) for every other name. -/
theorem config_environment_var_spec (ctx : Context) (service key : String) :
    (ConfigEnvironment.mk ctx service).var "PROJECT" = Except.ok ctx.project ∧
    (ConfigEnvironment.mk ctx service).var "OVERRIDE" = Except.ok ctx.ovr ∧
    (ConfigEnvironment.mk ctx service).var "POD" = Except.ok ctx.pod ∧
    (ConfigEnvironment.mk ctx service).var "SERVICE" = Except.ok service ∧
    (key ≠ "PROJECT" → key ≠ "OVERRIDE" → key ≠ "POD" → key ≠ "SERVICE" →
      (ConfigEnvironment.mk ctx service).var key = Except.error VarError.NotPresent) := by
  refine ⟨rfl, rfl, rfl, rfl, fun h1 h2 h3 h4 => ?_⟩
  unfold ConfigEnvironment.var
  split
  · simp_all
  · simp_all
  · simp_all
  · simp_all
  · rfl

/-- Witness for C5 at a concrete identity and the concrete foreign name HOME. -/
theorem config_environment_var_witness :
    (ConfigEnvironment.mk ctxEx "web").var "POD" = Except.ok "frontend" ∧
    (ConfigEnvironment.mk ctxEx "web").var "HOME" = Except.error VarError.NotPresent := by
  have h := config_environment_var_spec ctxEx "web" "HOME"
  exact ⟨h.2.2.1, h.2.2.2.2 (by decide) (by decide) (by decide) (by decide)⟩

/-- C7: VAULT_ADDR is inserted with the backend address before any step
that can fail: the environment of a processed service always contains the
key VAULT_ADDR (in particular when processing that service failed), and
when the first failable step (policy interpolation) fails the service is
exactly the input with only VAULT_ADDR inserted. -/
theorem vault_addr_inserted_before_failure (p : Plugin) (ctx : Context) (name : String)
    {ρ : Type} (svc : Service ρ) (e : Error) :
    (envGet (p.processService ctx name svc).1.environment "VAULT_ADDR").isSome = true ∧
    (interpolateAll (ConfigEnvironment.mk ctx name).var (composePolicies p.config ctx.pod name) =
        Except.error e →
      p.processService ctx name svc =
        ({ svc with environment := envInsert "VAULT_ADDR" p.generator.addr svc.environment },
         [], some e)) := by
  constructor
  · rw [processService_spec]
    cases interpolateAll (ConfigEnvironment.mk ctx name).var
        (composePolicies p.config ctx.pod name) with
    | error e2 =>
      dsimp only
      rw [envGet_envInsert, if_pos rfl]
      rfl
    | ok pols =>
      dsimp only
      cases p.generator.generate_token (displayName ctx name) pols
          (VaultDuration.seconds p.config.default_ttl) with
      | error e2 =>
        dsimp only
        rw [envGet_envInsert, if_pos rfl]
        rfl
      | ok token =>
        dsimp only
        apply applyExtra_isSome
        rw [envGet_envInsert, if_neg (by decide), envGet_envInsert, if_pos rfl]
        rfl
  · intro hI
    rw [processService_spec, hI]

/-- Witness for C7: a failing policy interpolation leaves exactly the
VAULT_ADDR insertion behind. -/
theorem vault_addr_inserted_witness :
    (envGet (Plugin.processService pluginBad ctxEx "web" svcEx).1.environment
      "VAULT_ADDR").isSome = true ∧
    Plugin.processService pluginBad ctxEx "web" svcEx =
      ({ svcEx with
          environment := envInsert "VAULT_ADDR" pluginBad.generator.addr svcEx.environment },
       [], some (Error.var VarError.NotPresent)) := by
  have h := vault_addr_inserted_before_failure pluginBad ctxEx "web" svcEx
    (Error.var VarError.NotPresent)
  exact ⟨h.1, h.2 (by decide)⟩

/-- C8: transform mutates only service environments: the service names,
their order and every non-environment field (abstracted as `rest`) are
unchanged by a transform call, whether it succeeds or fails; the config
document and backend handle are read-only inputs of the pure embedding. -/
theorem transform_frame (p : Plugin) (ctx : Context) {ρ : Type}
    (svcs : List (String × Service ρ)) :
    (p.transform ctx svcs).1.map (fun q => (q.1, q.2.rest)) =
      svcs.map (fun q => (q.1, q.2.rest)) := by
  induction svcs with
  | nil => rfl
  | cons q rest ih =>
    obtain ⟨n, s⟩ := q
    rw [transform_cons]
    rcases hps : p.processService ctx n s with ⟨s1, cls, err⟩
    have hrest : s1.rest = s.rest := by
      have h := processService_rest p ctx n s
      rw [hps] at h
      exact h
    cases err with
    | none =>
      dsimp only
      rw [List.map_cons, List.map_cons, ih, hrest]
    | some e =>
      dsimp only
      rw [List.map_cons, List.map_cons, hrest]

/-- C9: interpolation during transform never reads the process environment:
two runs with the same config, identity, services and backend but any two
process environments produce identical mutated trees, identical backend
call traces (hence identical resolved policies and display names) and
identical outcomes. -/
theorem transform_ignores_process_environment (p : Plugin) {ρ : Type}
    (procEnv1 procEnv2 : String → Option String) (ctx : Context)
    (svcs : List (String × Service ρ)) :
    p.transformInProcess procEnv1 ctx svcs = p.transformInProcess procEnv2 ctx svcs := rfl

/-- C10: ps delegates to compose exactly when act_on is a Named list with a
single name; every other act_on yields the fixed error, and the delegation
target is not invoked (the result does not depend on it). -/
theorem ps_requires_single_name {α : Type} (compose compose2 : ActOn → Except String α)
    (names : List String) :
    (names.length = 1 →
      CommandPs.ps compose (ActOn.named names) = compose (ActOn.named names)) ∧
    (names.length ≠ 1 →
      CommandPs.ps compose (ActOn.named names) =
          Except.error "You may only specify a single service or pod" ∧
        CommandPs.ps compose (ActOn.named names) = CommandPs.ps compose2 (ActOn.named names)) ∧
    (CommandPs.ps compose ActOn.all =
        Except.error "You may only specify a single service or pod" ∧
      CommandPs.ps compose ActOn.all = CommandPs.ps compose2 ActOn.all) := by
  refine ⟨fun h => ?_, fun h => ⟨?_, ?_⟩, rfl, rfl⟩
  · simp [CommandPs.ps, h]
  · simp [CommandPs.ps, h]
  · simp [CommandPs.ps, h]

/-- Witness for C10: one name delegates; two names yield the error. -/
theorem ps_requires_single_name_witness :
    CommandPs.ps (fun a => Except.ok a) (ActOn.named ["frontend"]) =
      Except.ok (ActOn.named ["frontend"]) ∧
    CommandPs.ps (fun a => Except.ok a) (ActOn.named ["frontend", "web"]) =
      Except.error "You may only specify a single service or pod" := by
  refine ⟨(ps_requires_single_name (fun a => Except.ok a)
      (fun _ => Except.ok ActOn.all) ["frontend"]).1 rfl,
    ((ps_requires_single_name (fun a => Except.ok a)
      (fun _ => Except.ok ActOn.all) ["frontend", "web"]).2.1 (by decide)).1⟩

/-- Counterexample to C1 as stated: with `extra_environment` containing a
VAULT_TOKEN entry, the transform succeeds, the backend call returned
"fake_token", yet the service environment afterwards binds VAULT_TOKEN to
"oops", not to the returned token. -/
theorem vault_token_overwritten_cex :
    (Plugin.transform pluginOverwrite ctxEx [("web", svcEx)]).2.2 = none ∧
    (Plugin.transform pluginOverwrite ctxEx [("web", svcEx)]).1.map
      (fun q => envGet q.2.environment "VAULT_TOKEN") = [some "oops"] ∧
    (Plugin.transform pluginOverwrite ctxEx [("web", svcEx)]).2.1.map
      (fun c => pluginOverwrite.generator.generate_token c.display_name c.policies c.ttl) =
      [Except.ok "fake_token"] ∧
    (some "oops" : Option String) ≠ some "fake_token" := by
  refine ⟨rfl, rfl, rfl, by decide⟩

/-- C1 amended: provided no extra_environment entry is keyed VAULT_ADDR or
VAULT_TOKEN, every service of a transform call that returns success ends up
with VAULT_ADDR bound to the backend address and VAULT_TOKEN bound to
exactly the token returned by the backend call made for that service. -/
theorem vault_env_bound_on_success (p : Plugin) (ctx : Context) {ρ : Type}
    (svcs svcs1 : List (String × Service ρ)) (calls : List VaultCall)
    (n : String) (s : Service ρ)
    (hok : p.transform ctx svcs = (svcs1, calls, none))
    (hmem : (n, s) ∈ svcs)
    (hres : ∀ q ∈ p.config.extra_environment, q.1 ≠ "VAULT_ADDR" ∧ q.1 ≠ "VAULT_TOKEN") :
    (n, (p.processService ctx n s).1) ∈ svcs1 ∧
    envGet (p.processService ctx n s).1.environment "VAULT_ADDR" = some p.generator.addr ∧
    ∃ pols token,
      p.generator.generate_token (displayName ctx n) pols
        (VaultDuration.seconds p.config.default_ttl) = Except.ok token ∧
      envGet (p.processService ctx n s).1.environment "VAULT_TOKEN" = some token := by
  obtain ⟨h1, h2, -⟩ := transform_ok_parts p ctx svcs svcs1 calls hok
  have hnone := h2 (n, s) hmem
  refine ⟨?_, ?_⟩
  · rw [h1]
    exact List.mem_map_of_mem _ hmem
  · cases hI : interpolateAll (ConfigEnvironment.mk ctx n).var
        (composePolicies p.config ctx.pod n) with
    | error e =>
      rw [processService_spec, hI] at hnone
      simp at hnone
    | ok pols =>
      cases hG : p.generator.generate_token (displayName ctx n) pols
          (VaultDuration.seconds p.config.default_ttl) with
      | error e =>
        rw [processService_spec, hI] at hnone
        dsimp only at hnone
        rw [hG] at hnone
        simp at hnone
      | ok token =>
        refine ⟨?_, pols, token, hG, ?_⟩
        · rw [processService_spec, hI]
          dsimp only
          rw [hG]
          dsimp only
          rw [applyExtra_preserves _ _ _ _ (fun q hq => (hres q hq).1),
            envGet_envInsert, if_neg (by decide), envGet_envInsert, if_pos rfl]
        · rw [processService_spec, hI]
          dsimp only
          rw [hG]
          dsimp only
          rw [applyExtra_preserves _ _ _ _ (fun q hq => (hres q hq).2),
            envGet_envInsert, if_pos rfl]

/-- Witness for the amended C1 at the spec's end-to-end scenario. -/
theorem vault_env_bound_witness :
    ("web", (Plugin.processService pluginEx ctxEx "web" svcEx).1) ∈
      (Plugin.transform pluginEx ctxEx [("web", svcEx)]).1 ∧
    envGet (Plugin.processService pluginEx ctxEx "web" svcEx).1.environment "VAULT_ADDR" =
      some pluginEx.generator.addr ∧
    ∃ pols token,
      pluginEx.generator.generate_token (displayName ctxEx "web") pols
        (VaultDuration.seconds pluginEx.config.default_ttl) = Except.ok token ∧
      envGet (Plugin.processService pluginEx ctxEx "web" svcEx).1.environment "VAULT_TOKEN" =
        some token := by
  exact vault_env_bound_on_success pluginEx ctxEx [("web", svcEx)]
    (Plugin.transform pluginEx ctxEx [("web", svcEx)]).1
    (Plugin.transform pluginEx ctxEx [("web", svcEx)]).2.1
    "web" svcEx rfl (by decide) (by decide)

/-- C2: the policy list passed to the (single) issue_token call made for a
service is the interpolation of default_policies followed, when the
pod/service entry exists, by the interpolation of its policies — in that
order, duplicates kept; when either key is absent nothing is appended and
no error occurs (the call is still made, with the defaults alone). -/
theorem policy_list_passed_to_issue_token (p : Plugin) (ctx : Context) (name : String)
    {ρ : Type} (svc : Service ρ) (ds : List String)
    (hd : interpolateAll (ConfigEnvironment.mk ctx name).var p.config.default_policies =
      Except.ok ds) :
    (∀ sc ss,
      (alistGet p.config.pods ctx.pod).bind (fun m => alistGet m name) = some sc →
      interpolateAll (ConfigEnvironment.mk ctx name).var sc.policies = Except.ok ss →
      (p.processService ctx name svc).2.1.map (fun c => c.policies) = [ds ++ ss]) ∧
    ((alistGet p.config.pods ctx.pod).bind (fun m => alistGet m name) = none →
      (p.processService ctx name svc).2.1.map (fun c => c.policies) = [ds]) := by
  constructor
  · intro sc ss hsc hss
    have hcomp : composePolicies p.config ctx.pod name =
        p.config.default_policies ++ sc.policies := by
      unfold composePolicies
      rw [hsc]
      rfl
    have hall := interpolateAll_append (ConfigEnvironment.mk ctx name).var
      p.config.default_policies sc.policies ds ss hd hss
    rw [processService_spec, hcomp, hall]
    dsimp only
    cases p.generator.generate_token (displayName ctx name) (ds ++ ss)
        (VaultDuration.seconds p.config.default_ttl) with
    | error e => rfl
    | ok token => rfl
  · intro hnone
    have hcomp : composePolicies p.config ctx.pod name = p.config.default_policies := by
      unfold composePolicies
      rw [hnone]
      simp
    rw [processService_spec, hcomp, hd]
    dsimp only
    cases p.generator.generate_token (displayName ctx name) ds
        (VaultDuration.seconds p.config.default_ttl) with
    | error e => rfl
    | ok token => rfl

/-- Witness for C2: a policy named identically in the defaults and in the
pod/service entry appears twice in the list passed to the backend. -/
theorem policy_list_passed_witness :
    (Plugin.processService pluginDup ctxEx "web" svcEx).2.1.map (fun c => c.policies) =
      [["p", "p"]] := by
  exact (policy_list_passed_to_issue_token pluginDup ctxEx "web" svcEx ["p"] (by decide)).1
    ⟨[[TemplatePart.lit "p"]]⟩ ["p"] (by decide) (by decide)

/-- Counterexample to C3 as stated: when a default policy references an
undefined variable the invocation makes zero issue_token calls for the
(sole) service "web", not exactly one. -/
theorem one_call_per_service_cex :
    (Plugin.transform pluginBad ctxEx [("web", svcEx)]).2.1.countP
      (fun c => c.display_name == displayName ctxEx "web") ≠ 1 := by
  decide

/-- C3 amended: in every transform invocation that completes without error,
exactly one issue_token call is made per service, in service order, each
with display name "{project}-{override}-{pod}-{service}" and ttl equal to
the config document's default_ttl in seconds. -/
theorem one_call_per_service_on_success (p : Plugin) (ctx : Context) {ρ : Type}
    (svcs svcs1 : List (String × Service ρ)) (calls : List VaultCall)
    (hok : p.transform ctx svcs = (svcs1, calls, none)) :
    calls.map (fun c => (c.display_name, c.ttl)) =
      svcs.map (fun q => (displayName ctx q.1, VaultDuration.seconds p.config.default_ttl)) := by
  obtain ⟨-, h2, h3⟩ := transform_ok_parts p ctx svcs svcs1 calls hok
  rw [h3]
  exact calls_shape p ctx svcs h2

/-- Witness for the amended C3 at the spec's end-to-end scenario. -/
theorem one_call_per_service_witness :
    (Plugin.transform pluginEx ctxEx [("web", svcEx)]).2.1.map
      (fun c => (c.display_name, c.ttl)) =
      [("rails_hello-production-frontend-web", VaultDuration.seconds 2592000)] := by
  have h := one_call_per_service_on_success pluginEx ctxEx [("web", svcEx)]
    (Plugin.transform pluginEx ctxEx [("web", svcEx)]).1
    (Plugin.transform pluginEx ctxEx [("web", svcEx)]).2.1 rfl
  exact h.trans (by decide)

/-- C4: the first per-service failure is returned immediately: services
before the failing one keep all their mutations, the failing service keeps
its partial mutation, the services after it are untouched, and the error
returned is that first error — transform is not atomic across the set. -/
theorem transform_first_error (p : Plugin) (ctx : Context) {ρ : Type}
    (pre post : List (String × Service ρ)) (n : String) (s s1 : Service ρ)
    (cls : List VaultCall) (e : Error)
    (hpre : ∀ q ∈ pre, (p.processService ctx q.1 q.2).2.2 = none)
    (hfail : p.processService ctx n s = (s1, cls, some e)) :
    p.transform ctx (pre ++ (n, s) :: post) =
      (pre.map (fun q => (q.1, (p.processService ctx q.1 q.2).1)) ++ (n, s1) :: post,
       pre.foldr (fun q acc => (p.processService ctx q.1 q.2).2.1 ++ acc) cls,
       some e) := by
  induction pre with
  | nil =>
    rw [List.nil_append, transform_cons, hfail]
    simp
  | cons q rest ih =>
    obtain ⟨qn, qs⟩ := q
    rcases hq : p.processService ctx qn qs with ⟨q1, qc, qerr⟩
    have hqe : qerr = none := by
      have h := hpre (qn, qs) (List.mem_cons_self _ _)
      rw [hq] at h
      exact h
    subst hqe
    rw [List.cons_append, transform_cons, hq]
    dsimp only
    rw [ih (fun r hr => hpre r (List.mem_cons_of_mem _ hr))]
    simp only [List.map_cons, List.foldr_cons, List.cons_append, hq]

/-- Witness for C4: one succeeding service, a failing one, one untouched
service after it. -/
theorem transform_first_error_witness :
    Plugin.transform pluginFailWeb ctxEx [("api", svcEx), ("web", svcEx), ("zed", svcEx)] =
      ([("api", ⟨[("VAULT_ADDR", "http://example.com:8200/"),
                  ("VAULT_TOKEN", "fake_token")], ()⟩),
        ("web", ⟨[("VAULT_ADDR", "http://example.com:8200/")], ()⟩),
        ("zed", ⟨[], ()⟩)],
       [⟨"rails_hello-production-frontend-api", [], VaultDuration.seconds 300⟩],
       some (Error.var VarError.NotPresent)) := by
  have h := transform_first_error pluginFailWeb ctxEx [("api", svcEx)] [("zed", svcEx)]
    "web" svcEx ⟨[("VAULT_ADDR", "http://example.com:8200/")], ()⟩ []
    (Error.var VarError.NotPresent) (by decide) (by decide)
  exact h.trans (by decide)

/-- C6: an extra_environment entry is interpolated and inserted over any
pre-existing value under the same key — including the VAULT_ADDR and
VAULT_TOKEN keys written earlier for the same service; the last write to a
key wins. -/
theorem extra_environment_overwrites (p : Plugin) (ctx : Context) (name : String)
    {ρ : Type} (svc : Service ρ) (l1 l2 : List (String × Template))
    (k : String) (t : Template) (v : String)
    (hsplit : p.config.extra_environment = l1 ++ (k, t) :: l2)
    (hlast : ∀ q ∈ l2, q.1 ≠ k)
    (hok : (p.processService ctx name svc).2.2 = none)
    (hv : interpolate (ConfigEnvironment.mk ctx name).var t = Except.ok v) :
    envGet (p.processService ctx name svc).1.environment k = some v := by
  cases hI : interpolateAll (ConfigEnvironment.mk ctx name).var
      (composePolicies p.config ctx.pod name) with
  | error e =>
    rw [processService_spec, hI] at hok
    simp at hok
  | ok pols =>
    cases hG : p.generator.generate_token (displayName ctx name) pols
        (VaultDuration.seconds p.config.default_ttl) with
    | error e =>
      rw [processService_spec, hI] at hok
      dsimp only at hok
      rw [hG] at hok
      simp at hok
    | ok token =>
      rw [processService_spec, hI] at hok ⊢
      dsimp only at hok ⊢
      rw [hG] at hok ⊢
      dsimp only at hok ⊢
      rw [hsplit] at hok ⊢
      exact applyExtra_last_write _ l1 l2 k t v _ hv hlast hok

/-- Witness for C6: the extra entry overwrites the reserved VAULT_TOKEN key. -/
theorem extra_environment_overwrites_witness :
    envGet (Plugin.processService pluginOverwrite ctxEx "web" svcEx).1.environment
      "VAULT_TOKEN" = some "oops" := by
  exact extra_environment_overwrites pluginOverwrite ctxEx "web" svcEx [] []
    "VAULT_TOKEN" [TemplatePart.lit "oops"] "oops" rfl (by decide) (by decide) (by decide)
